import Mathlib

/-!
Verification of the ANSI-to-Win32 stream translation layer
(`thirdlib/colorama`: `ansitowin32.py`, `winterm.py`, `win32.py`, `ansi.py`).

The Python source is shallowly embedded: text is `List Char`, the mutable
`WinTerm` singleton becomes an explicit `WinTermState` threaded through the
functions, calls into the Win32 console API are recorded in a `NativeCall`
trace, and the wrapped destination stream is modelled by the list of
characters passed to its `write` method.  Python exceptions surface as a
`PyError` value in `WriteResult`.
-/

/-- Python exceptions that the translated code can raise. -/
inductive PyError where
  | attributeError
  | indexError
deriving DecidableEq, Repr

/-- A call into the native Win32 console API (`win32.py` primitives used by
`WinTerm`): `SetConsoleTextAttribute` and `SetConsoleTitle`. -/
inductive NativeCall where
  | setConsoleTextAttribute (attrs : Nat)
  | setConsoleTitle (title : List Char)
deriving DecidableEq, Repr

/-- `WinTerm` state (`winterm.py`): foreground, background, style bits and
the `_light_mode` field, plus the captured default attributes. -/
structure WinTermState where
  default_attrs : Nat
  fore : Nat
  back : Nat
  style : Nat
  light_mode : Nat
deriving DecidableEq, Repr

/-- `WinStyle.NORMAL` -/
def WinStyleNORMAL : Nat := 0x00
/-- `WinStyle.BRIGHT` -/
def WinStyleBRIGHT : Nat := 0x08
/-- `WinStyle.BRIGHT_BACKGROUND` -/
def WinStyleBRIGHT_BACKGROUND : Nat := 0x80

/-- `WinColor.BLUE` -/
def WinColorBLUE : Nat := 1
/-- `WinColor.GREEN` -/
def WinColorGREEN : Nat := 2
/-- `WinColor.RED` -/
def WinColorRED : Nat := 4

/-- `WinTerm._reset_attributes`: recompute fore/back/style from the captured
default attributes (`_light_mode` is left untouched, as in the source). -/
def WinTermState.resetAttributes (w : WinTermState) : WinTermState :=
  { w with
    fore := w.default_attrs &&& 7
    back := (w.default_attrs >>> 4) &&& 7
    style := w.default_attrs &&& (WinStyleBRIGHT ||| WinStyleBRIGHT_BACKGROUND) }

/-- `WinTerm.__init__`: capture the console's default attributes, reset the
tracked fields from them and clear `_light_mode`. -/
def WinTermState.init (default_attrs : Nat) : WinTermState :=
  WinTermState.resetAttributes ⟨default_attrs, 0, 0, 0, 0⟩

/-- `WinTerm.get_attrs`: pack fore, back and style into one attribute word. -/
def WinTermState.get_attrs (w : WinTermState) : Nat :=
  w.fore + w.back * 16 + (w.style ||| w.light_mode)

/-- `WinTerm.set_console_attrs` with `attrs=None`: one
`SetConsoleTextAttribute` call carrying the packed current attributes. -/
def WinTermState.set_console_attrs (w : WinTermState) : WinTermState × List NativeCall :=
  (w, [NativeCall.setConsoleTextAttribute w.get_attrs])

/-- `WinTerm.reset_all`: reset the tracked attributes, then apply them. -/
def WinTermState.reset_all (w : WinTermState) : WinTermState × List NativeCall :=
  WinTermState.set_console_attrs w.resetAttributes

/-- `WinTerm.set_foreground`: set the foreground color and `_light_mode`,
then apply the attributes. -/
def WinTermState.set_foreground (color : Nat) (light : Bool) (w : WinTermState) :
    WinTermState × List NativeCall :=
  WinTermState.set_console_attrs
    { w with fore := color, light_mode := if light then WinStyleBRIGHT else 0 }

/-- `WinTerm.set_background`: set the background color and `_light_mode`,
then apply the attributes. -/
def WinTermState.set_background (color : Nat) (light : Bool) (w : WinTermState) :
    WinTermState × List NativeCall :=
  WinTermState.set_console_attrs
    { w with back := color, light_mode := if light then WinStyleBRIGHT_BACKGROUND else 0 }

/-- `WinTerm.set_title`: one `SetConsoleTitle` call; the tracked attribute
state is unchanged. -/
def WinTermState.set_title (title : List Char) (w : WinTermState) :
    WinTermState × List NativeCall :=
  (w, [NativeCall.setConsoleTitle title])

/-- Modelled from the spec: `ansitowin32.get_win32_calls` maps `AnsiStyle.BRIGHT`
and `AnsiStyle.DIM` to `winterm.style`, but `winterm.py` defines no `style`
method.  Per spec 4.2 (`1` sets bright, `2` clears it) and the pattern of the
other `WinTerm` setters (assign the field, then apply the attributes, as
`print_styled` does inline with `self._style = style; self.set_console_attrs()`),
the missing method assigns the style bits and applies the attributes. -/
def WinTermState.styleSet (s : Nat) (w : WinTermState) : WinTermState × List NativeCall :=
  WinTermState.set_console_attrs { w with style := s }

/-- `AnsiToWin32` configuration: the `convert`/`strip`/`autoreset` flags fixed
at construction, plus the wrapped stream's `closed` flag. -/
structure Config where
  convert : Bool
  strip : Bool
  autoreset : Bool
  closed : Bool
deriving DecidableEq, Repr

/-- Output observed at the wrapped destination and at the native console:
`written` concatenates every payload passed to `wrapped.write`, `native`
records the Win32 API calls, each in order. -/
structure Output where
  written : List Char
  native : List NativeCall
deriving DecidableEq, Repr

/-- Concatenation of two observed outputs. -/
def Output.app (a b : Output) : Output :=
  ⟨a.written ++ b.written, a.native ++ b.native⟩

/-- Result of `AnsiToWin32.write`: the final `winterm` state and observed
output, or the Python exception raised. -/
inductive WriteResult where
  | ok (w : Option WinTermState) (out : Output)
  | error (e : PyError)
deriving DecidableEq, Repr

/-- `ansitowin32.get_win32_calls` as the partial map from a CSI parameter to
the `winterm` action it triggers; the dictionary keys are the class-level
integers `AnsiStyle.RESET_ALL = 0`, `AnsiStyle.BRIGHT = 1`, `AnsiStyle.DIM = 2`,
`AnsiFore.RED = 31`, `AnsiBack.BLUE = 44`, and no others.
Modelled from the spec: the dictionary values name `winterm.style`,
`winterm.fore` and `winterm.back`, none of which `winterm.py` defines; per
spec 4.2 they are bound to the style assignment, `WinTerm.set_foreground`
and `WinTerm.set_background` (with the source's default `light=False`). -/
def win32Calls (param : Nat) : Option (WinTermState → WinTermState × List NativeCall) :=
  if param = 0 then some WinTermState.reset_all
  else if param = 1 then some (WinTermState.styleSet WinStyleBRIGHT)
  else if param = 2 then some (WinTermState.styleSet WinStyleNORMAL)
  else if param = 31 then some (WinTermState.set_foreground WinColorRED false)
  else if param = 44 then some (WinTermState.set_background WinColorBLUE false)
  else none

/-- Python `paramstring.split(';')`: split on every `';'`, keeping empty
fields, always producing at least one field. -/
def splitSemi : List Char → List (List Char)
  | [] => [[]]
  | c :: rest =>
    if c = ';' then [] :: splitSemi rest
    else
      match splitSemi rest with
      | [] => [[c]]
      | g :: gs => (c :: g) :: gs

/-- Python `str.isdigit` on the fields arising here: nonempty and all
characters decimal digits. -/
def pyIsDigit (cs : List Char) : Bool :=
  !cs.isEmpty && cs.all Char.isDigit

/-- Numeric value of a digit string, as Python `int`. -/
def digitsVal (cs : List Char) : Nat :=
  cs.foldl (fun n c => n * 10 + (c.toNat - 48)) 0

/-- `handle_ansi_sequence`'s parameter parsing:
`[int(p) for p in paramstring.split(';') if p.isdigit()]`. -/
def parseParams (paramstring : List Char) : List Nat :=
  (splitSemi paramstring).filterMap fun p => if pyIsDigit p then some (digitsVal p) else none

/-- The loop body of `handle_ansi_sequence`: dispatch each parameter through
the `win32_calls` table.  The table is empty unless the translator converts
and a `winterm` exists (`get_win32_calls` returns `{}` otherwise). -/
def handleParams (cfg : Config) : Option WinTermState → List Nat →
    Option WinTermState × List NativeCall
  | w, [] => (w, [])
  | some ws, p :: ps =>
    match cfg.convert, win32Calls p with
    | true, some f =>
      let r := f ws
      let r2 := handleParams cfg (some r.1) ps
      (r2.1, r.2 ++ r2.2)
    | true, none => handleParams cfg (some ws) ps
    | false, _ => handleParams cfg (some ws) ps
  | none, _ :: ps => handleParams cfg none ps

/-- `AnsiToWin32.handle_ansi_sequence`. -/
def handle_ansi_sequence (cfg : Config) (w : Option WinTermState) (paramstring : List Char) :
    Option WinTermState × List NativeCall :=
  handleParams cfg w (parseParams paramstring)

/-- Character class `[0-9;]` of the CSI regular expression. -/
def isParamChar (c : Char) : Bool :=
  c.isDigit || c = ';'

/-- Attempt of the CSI regular expression `\033\[([0-9;]*)m` on the text just
after `ESC [`: the greedy parameter run must be followed by `m`; returns the
captured parameters and the remaining text.  (`m` is not in `[0-9;]`, so
greedy matching with backtracking coincides with maximal munch.) -/
def csiParams (cs : List Char) : Option (List Char × List Char) :=
  match cs.dropWhile isParamChar with
  | 'm' :: r => some (cs.takeWhile isParamChar, r)
  | _ => none

/-- One span of the text as seen by `process_text`: a plain character, or a
matched CSI sequence's captured parameter string. -/
inductive RawSeg where
  | ch (c : Char)
  | csi (params : List Char)
deriving DecidableEq, Repr

/-- Attempt of the full CSI regular expression at the head of the text:
the introducer `ESC [` followed by a successful `csiParams`. -/
def csiAt : List Char → Option (List Char × List Char)
  | c :: d :: rest2 => if c = '\x1b' && d = '[' then csiParams rest2 else none
  | _ => none

/-- `re.finditer` of `ANSI_CSI_RE` with the interleaved plain spans, scanning
left to right and advancing one character when no match starts at the current
position.  The fuel is an upper bound on the remaining length; `csiScan`
supplies an adequate amount, making the fuel-exhausted branch unreachable. -/
def csiGo : Nat → List Char → List RawSeg
  | 0, l => l.map RawSeg.ch
  | _ + 1, [] => []
  | fuel + 1, c :: rest =>
    match csiAt (c :: rest) with
    | some (ps, r) => RawSeg.csi ps :: csiGo fuel r
    | none => RawSeg.ch c :: csiGo fuel rest

/-- Tokenization of a text by `ANSI_CSI_RE`, covering the whole input. -/
def csiScan (l : List Char) : List RawSeg :=
  csiGo l.length l

/-- Body of the OSC regular expression `\033\](.*?)(\x07)` after `ESC ]`: the
lazy `.*?` takes the characters before the first BEL, none of which may be a
newline (`.` excludes `\n`); fails when no BEL is reachable. -/
def oscBody (cs : List Char) : Option (List Char) :=
  match cs.dropWhile (fun c => !(c = '\x07' || c = '\n')) with
  | '\x07' :: _ => some (cs.takeWhile (fun c => !(c = '\x07' || c = '\n')))
  | _ => none

/-- Attempt of the full OSC regular expression at the head of the text:
the introducer `ESC ]` followed by a successful `oscBody`. -/
def oscAt : List Char → Option (List Char)
  | c :: d :: rest2 => if c = '\x1b' && d = ']' then oscBody rest2 else none
  | _ => none

/-- `re.finditer` of `ANSI_OSC_RE`: the `(start, end, paramstring)` triples of
every match, left to right, non-overlapping, indices into the scanned text.
The fuel is an upper bound on the remaining length, supplied adequately by
`oscFinditer`. -/
def oscGo : Nat → Nat → List Char → List (Nat × Nat × List Char)
  | 0, _, _ => []
  | _ + 1, _, [] => []
  | fuel + 1, i, c :: rest =>
    match oscAt (c :: rest) with
    | some ps =>
      (i, i + 2 + ps.length + 1, ps) ::
        oscGo fuel (i + 2 + ps.length + 1) ((c :: rest).drop (2 + ps.length + 1))
    | none => oscGo fuel (i + 1) rest

/-- All matches of `ANSI_OSC_RE` in a text. -/
def oscFinditer (l : List Char) : List (Nat × Nat × List Char) :=
  oscGo l.length 0 l

/-- Python `text[:start] + text[end:]`. -/
def spliceRange (text : List Char) (s e : Nat) : List Char :=
  text.take s ++ text.drop e

/-- Whether `n` starts `h` (character lists compared elementwise). -/
def listStarts : List Char → List Char → Bool
  | [], _ => true
  | _ :: _, [] => false
  | a :: as, b :: bs => a = b && listStarts as bs

/-- Python substring membership `n in h` for strings. -/
def pyInSub : List Char → List Char → Bool
  | n, [] => n.isEmpty
  | n, c :: t => listStarts n (c :: t) || pyInSub n t

/-- The title-handling part of one `convert_osc` loop iteration: split the
matched payload on `';'`; when the first field is a substring of `"02"`,
call `winterm.set_title` with the second field.  Looking up `set_title` on an
absent `winterm` (`None`) raises `AttributeError`; a missing second field
raises `IndexError` (Python evaluates `winterm.set_title` first). -/
def oscHandle (w : Option WinTermState) (ps : List Char) :
    Except PyError (Option WinTermState × List NativeCall) :=
  let params := splitSemi ps
  if pyInSub (params.headD []) ('0' :: ['2']) then
    match w with
    | none => Except.error PyError.attributeError
    | some ws =>
      match params.get? 1 with
      | none => Except.error PyError.indexError
      | some t =>
        let r := WinTermState.set_title t ws
        Except.ok (some r.1, r.2)
  else Except.ok (w, [])

/-- The `convert_osc` loop over the matches found in the original text: each
iteration splices the match's span out of the current text (the spans index
the original text, as in the source, where `finditer` ran on the original
string), then handles the title command.  The matched terminator group is
always BEL, so the `command == '\x07'` test always passes. -/
def oscApply (w : Option WinTermState) (cur : List Char)
    (ms : List (Nat × Nat × List Char)) (acc : List NativeCall) :
    Except PyError (List Char × Option WinTermState × List NativeCall) :=
  match ms with
  | [] => Except.ok (cur, w, acc)
  | (s, e, ps) :: rest =>
    let cur2 := spliceRange cur s e
    match oscHandle w ps with
    | Except.error er => Except.error er
    | Except.ok (w2, cs) => oscApply w2 cur2 rest (acc ++ cs)

/-- `AnsiToWin32.convert_osc`. -/
def convert_osc (w : Option WinTermState) (text : List Char) :
    Except PyError (List Char × Option WinTermState × List NativeCall) :=
  oscApply w text (oscFinditer text) []

/-- The CSI loop of `process_text`: plain characters between matches go to
`wrapped.write` (`write_plain_text`, byte-identically), each matched
parameter string goes through `handle_ansi_sequence`. -/
def emitSegs (cfg : Config) : Option WinTermState → List RawSeg →
    Option WinTermState × Output
  | w, [] => (w, ⟨[], []⟩)
  | w, RawSeg.ch c :: rest =>
    let r := emitSegs cfg w rest
    (r.1, ⟨c :: r.2.written, r.2.native⟩)
  | w, RawSeg.csi ps :: rest =>
    let h := handle_ansi_sequence cfg w ps
    let r := emitSegs cfg h.1 rest
    (r.1, ⟨r.2.written, h.2 ++ r.2.native⟩)

/-- `AnsiToWin32.process_text`: first `convert_osc`, then the CSI loop over
the resulting text. -/
def process_text (cfg : Config) (w : Option WinTermState) (text : List Char) :
    WriteResult :=
  match convert_osc w text with
  | Except.error er => WriteResult.error er
  | Except.ok (text2, w2, oscCalls) =>
    let r := emitSegs cfg w2 (csiScan text2)
    WriteResult.ok r.1 ⟨r.2.written, oscCalls ++ r.2.native⟩

/-- `AnsiToWin32.reset_all`: in convert mode, dispatch the parameter string
`'0'`; otherwise, when not stripping and the stream is not closed, write the
literal `Style.RESET_ALL` escape (`'\x1b[0m'`) to the wrapped stream. -/
def a2w_reset_all (cfg : Config) (w : Option WinTermState) :
    Option WinTermState × Output :=
  if cfg.convert then
    let h := handle_ansi_sequence cfg w ['0']
    (h.1, ⟨[], h.2⟩)
  else if !cfg.strip && !cfg.closed then
    (w, ⟨'\x1b' :: '[' :: '0' :: ['m'], []⟩)
  else (w, ⟨[], []⟩)

/-- `AnsiToWin32.write`: route through `process_text` when stripping or
converting, else forward verbatim; afterwards, when `autoreset` is set,
perform `reset_all`. -/
def a2w_write (cfg : Config) (w : Option WinTermState) (text : List Char) :
    WriteResult :=
  match
    (if cfg.strip || cfg.convert then process_text cfg w text
     else WriteResult.ok w ⟨text, []⟩) with
  | WriteResult.error er => WriteResult.error er
  | WriteResult.ok w1 out1 =>
    if cfg.autoreset then
      let r := a2w_reset_all cfg w1
      WriteResult.ok r.1 (out1.app r.2)
    else WriteResult.ok w1 out1

/-- `AnsiToWin32.default_conversion`:
`os.name == 'nt' and winapi_test() and self.stream.isatty()`. -/
def default_conversion (on_windows winapiTest isatty : Bool) : Bool :=
  on_windows && winapiTest && isatty

/-- Resolution of the `convert` flag in `AnsiToWin32.__init__`. -/
def a2wInitConvert (convert : Option Bool) (on_windows winapiTest isatty : Bool) : Bool :=
  convert.getD (default_conversion on_windows winapiTest isatty)

/-- Resolution of the `strip` flag in `AnsiToWin32.__init__`: defaults to the
negation of the resolved `convert` flag. -/
def a2wInitStrip (strip : Option Bool) (convertResolved : Bool) : Bool :=
  strip.getD (!convertResolved)

/-- The three translation modes. -/
inductive Mode where
  | Convert
  | Strip
  | Passthrough
deriving DecidableEq, Repr

/-- The mode realized by a pair of resolved flags: `write` converts when
`convert` is set, otherwise strips when `strip` is set, otherwise passes
text through verbatim. -/
def modeOf (convert strip : Bool) : Mode :=
  if convert then Mode.Convert else if strip then Mode.Strip else Mode.Passthrough

/-- The mode reached from `Auto` (both flags left `None` at construction). -/
def autoMode (on_windows winapiTest isatty : Bool) : Mode :=
  let c := a2wInitConvert none on_windows winapiTest isatty
  modeOf c (a2wInitStrip none c)

/-- The bytes a strip-or-convert `write` forwards to the wrapped stream, as a
pure text transformation: the OSC matches spliced out, then the plain spans
between CSI matches. -/
def oscStripped (text : List Char) : List Char :=
  (oscFinditer text).foldl (fun cur m => spliceRange cur m.1 m.2.1) text

/-- Plain characters of a token list. -/
def segsPlain : List RawSeg → List Char
  | [] => []
  | RawSeg.ch c :: rest => c :: segsPlain rest
  | RawSeg.csi _ :: rest => segsPlain rest

/-- Plain text left after removing every CSI match. -/
def csiPlain (text : List Char) : List Char :=
  segsPlain (csiScan text)

/-- The strip transformation on text: OSC splicing followed by CSI removal. -/
def stripBytes (text : List Char) : List Char :=
  csiPlain (oscStripped text)

/-- Whether a native call is a `SetConsoleTextAttribute` (set-attributes) call. -/
def isAttrCall : NativeCall → Bool
  | NativeCall.setConsoleTextAttribute _ => true
  | NativeCall.setConsoleTitle _ => false

/-- Number of set-attributes calls in a native-call trace. -/
def attrCallCount (l : List NativeCall) : Nat :=
  (l.filter isAttrCall).length

/-- Number of parameters of a token that the `win32_calls` table recognizes. -/
def recognizedCount (ps : List Nat) : Nat :=
  (ps.filter fun p => (win32Calls p).isSome).length

/-- The foreground color tracked by the `winterm` state of a successful
write, when that state exists. -/
def finalFore : WriteResult → Option Nat
  | WriteResult.ok (some w) _ => some w.fore
  | _ => none

/-- The native-call trace of a successful write. -/
def nativeOf : WriteResult → List NativeCall
  | WriteResult.ok _ out => out.native
  | WriteResult.error _ => []

example : stripBytes "a\x1b[31mb".data = "ab".data := by decide
example : a2w_write ⟨false, true, false, false⟩ none "abc".data
    = WriteResult.ok none ⟨"abc".data, []⟩ := by decide
example : a2w_write ⟨true, false, false, false⟩ (some (WinTermState.init 7)) "\x1b[31;32m".data
    = WriteResult.ok (some ⟨7, 4, 0, 0, 0⟩) ⟨[], [NativeCall.setConsoleTextAttribute 4]⟩ := by
  decide

theorem oscGo_nil (fuel i : Nat) : oscGo fuel i [] = [] := by
  cases fuel <;> rfl

theorem oscBody_mem_bel (cs ps : List Char) (h : oscBody cs = some ps) : '\x07' ∈ cs := by
  rw [oscBody] at h
  split at h
  · next heq =>
    have hm : '\x07' ∈ cs.dropWhile fun c => !(c = '\x07' || c = '\n') := by
      rw [heq]; exact List.mem_cons_self _ _
    exact List.dropWhile_subset _ hm
  · exact absurd h (by simp)

theorem csiParams_mem_m (cs : List Char) (pr : List Char × List Char)
    (h : csiParams cs = some pr) : 'm' ∈ cs := by
  rw [csiParams] at h
  split at h
  · next heq =>
    have hm : 'm' ∈ cs.dropWhile isParamChar := by
      rw [heq]; exact List.mem_cons_self _ _
    exact List.dropWhile_subset _ hm
  · exact absurd h (by simp)

theorem csiAt_cons_cons (c d : Char) (r : List Char) :
    csiAt (c :: d :: r) = if c = '\x1b' && d = '[' then csiParams r else none := rfl

theorem oscAt_cons_cons (c d : Char) (r : List Char) :
    oscAt (c :: d :: r) = if c = '\x1b' && d = ']' then oscBody r else none := rfl

theorem csiAt_none (c : Char) (rest : List Char) (h : c ≠ '\x1b' ∨ 'm' ∉ rest) :
    csiAt (c :: rest) = none := by
  cases rest with
  | nil => rfl
  | cons d rest2 =>
    rw [csiAt_cons_cons]
    by_cases hc : (c = '\x1b' && d = '[') = true
    · rw [if_pos hc]
      simp only [Bool.and_eq_true, decide_eq_true_eq] at hc
      cases hp : csiParams rest2 with
      | none => rfl
      | some pr =>
        have hm : 'm' ∈ rest2 := csiParams_mem_m rest2 pr hp
        rcases h with h | h
        · exact absurd hc.1 h
        · exact absurd (List.mem_cons_of_mem d hm) h
    · rw [if_neg hc]

theorem oscAt_none (c : Char) (rest : List Char) (h : c ≠ '\x1b' ∨ '\x07' ∉ rest) :
    oscAt (c :: rest) = none := by
  cases rest with
  | nil => rfl
  | cons d rest2 =>
    rw [oscAt_cons_cons]
    by_cases hc : (c = '\x1b' && d = ']') = true
    · rw [if_pos hc]
      simp only [Bool.and_eq_true, decide_eq_true_eq] at hc
      cases hp : oscBody rest2 with
      | none => rfl
      | some ps =>
        have hm : '\x07' ∈ rest2 := oscBody_mem_bel rest2 ps hp
        rcases h with h | h
        · exact absurd hc.1 h
        · exact absurd (List.mem_cons_of_mem d hm) h
    · rw [if_neg hc]

theorem csiGo_cons (n : Nat) (c : Char) (rest : List Char)
    (h : c ≠ '\x1b' ∨ 'm' ∉ rest) :
    csiGo (n + 1) (c :: rest) = RawSeg.ch c :: csiGo n rest := by
  rw [csiGo, csiAt_none c rest h]

theorem oscGo_cons (n i : Nat) (c : Char) (rest : List Char)
    (h : c ≠ '\x1b' ∨ '\x07' ∉ rest) :
    oscGo (n + 1) i (c :: rest) = oscGo n (i + 1) rest := by
  rw [oscGo, oscAt_none c rest h]

theorem csiGo_all_ch (fuel : Nat) (l : List Char) (h : '\x1b' ∉ l ∨ 'm' ∉ l) :
    csiGo fuel l = l.map RawSeg.ch := by
  induction fuel generalizing l with
  | zero => rfl
  | succ n ih =>
    cases l with
    | nil => rfl
    | cons c rest =>
      have hrest : '\x1b' ∉ rest ∨ 'm' ∉ rest := by
        rcases h with h | h
        · exact Or.inl fun hm => h (List.mem_cons_of_mem _ hm)
        · exact Or.inr fun hm => h (List.mem_cons_of_mem _ hm)
      have hside : c ≠ '\x1b' ∨ 'm' ∉ rest := by
        rcases h with h | h
        · exact Or.inl fun hc => h (hc ▸ List.mem_cons_self _ _)
        · exact Or.inr fun hm => h (List.mem_cons_of_mem _ hm)
      rw [csiGo_cons n c rest hside, ih rest hrest, List.map_cons]

theorem oscGo_eq_nil (fuel : Nat) (i : Nat) (l : List Char)
    (h : '\x1b' ∉ l ∨ '\x07' ∉ l) : oscGo fuel i l = [] := by
  induction fuel generalizing i l with
  | zero => rfl
  | succ n ih =>
    cases l with
    | nil => rfl
    | cons c rest =>
      have hrest : '\x1b' ∉ rest ∨ '\x07' ∉ rest := by
        rcases h with h | h
        · exact Or.inl fun hm => h (List.mem_cons_of_mem _ hm)
        · exact Or.inr fun hm => h (List.mem_cons_of_mem _ hm)
      have hside : c ≠ '\x1b' ∨ '\x07' ∉ rest := by
        rcases h with h | h
        · exact Or.inl fun hc => h (hc ▸ List.mem_cons_self _ _)
        · exact Or.inr fun hm => h (List.mem_cons_of_mem _ hm)
      rw [oscGo_cons n i c rest hside]
      exact ih (i + 1) rest hrest

theorem emitSegs_map_ch (cfg : Config) (w : Option WinTermState) (l : List Char) :
    emitSegs cfg w (l.map RawSeg.ch) = (w, ⟨l, []⟩) := by
  induction l with
  | nil => rfl
  | cons c rest ih => simp [emitSegs, ih]

theorem segsPlain_map_ch (l : List Char) : segsPlain (l.map RawSeg.ch) = l := by
  induction l with
  | nil => rfl
  | cons c rest ih => simp [segsPlain, ih]

theorem csiScan_eq (l : List Char) : csiScan l = csiGo l.length l := rfl

theorem oscFinditer_eq (l : List Char) : oscFinditer l = oscGo l.length 0 l := rfl

theorem stripBytes_no_esc (s : List Char) (h : '\x1b' ∉ s) : stripBytes s = s := by
  have hosc : oscFinditer s = [] := (oscFinditer_eq s).trans (oscGo_eq_nil _ 0 s (Or.inl h))
  have hstr : oscStripped s = s := by rw [oscStripped, hosc]; rfl
  rw [stripBytes, hstr, csiPlain, csiScan_eq, csiGo_all_ch _ s (Or.inl h), segsPlain_map_ch]

theorem a2w_write_id (cfg : Config) (w : Option WinTermState) (text : List Char)
    (hosc : '\x1b' ∉ text ∨ '\x07' ∉ text) (hcsi : '\x1b' ∉ text ∨ 'm' ∉ text)
    (hauto : cfg.autoreset = false) :
    a2w_write cfg w text = WriteResult.ok w ⟨text, []⟩ := by
  have hfind : oscFinditer text = [] := (oscFinditer_eq text).trans (oscGo_eq_nil _ 0 text hosc)
  have hco : convert_osc w text = Except.ok (text, w, []) := by
    rw [convert_osc, hfind]; rfl
  have hpt : process_text cfg w text = WriteResult.ok w ⟨text, []⟩ := by
    rw [process_text, hco]
    dsimp only
    rw [csiScan_eq, csiGo_all_ch _ text hcsi, emitSegs_map_ch]
    rfl
  have hbr : (if cfg.strip || cfg.convert then process_text cfg w text
      else WriteResult.ok w ⟨text, []⟩) = WriteResult.ok w ⟨text, []⟩ := by
    by_cases hb : cfg.strip || cfg.convert
    · rw [if_pos hb]; exact hpt
    · rw [if_neg hb]
  rw [a2w_write, hbr, hauto]
  rfl

theorem attrCallCount_append (a b : List NativeCall) :
    attrCallCount (a ++ b) = attrCallCount a + attrCallCount b := by
  simp [attrCallCount, List.filter_append]

theorem recognizedCount_cons (p : Nat) (ps : List Nat) :
    recognizedCount (p :: ps)
      = (if (win32Calls p).isSome then 1 else 0) + recognizedCount ps := by
  by_cases h : (win32Calls p).isSome
  · simp [recognizedCount, List.filter_cons, h]
    omega
  · simp [recognizedCount, List.filter_cons, h]

theorem win32Calls_attr_one (p : Nat) (f : WinTermState → WinTermState × List NativeCall)
    (h : win32Calls p = some f) (ws : WinTermState) : attrCallCount (f ws).2 = 1 := by
  rw [win32Calls] at h
  split_ifs at h <;> (cases h; rfl)

theorem handleParams_attr_count (ps : List Nat) : ∀ ws : WinTermState,
    attrCallCount (handleParams ⟨true, false, false, false⟩ (some ws) ps).2
      = recognizedCount ps := by
  induction ps with
  | nil => intro ws; rfl
  | cons p rest ih =>
    intro ws
    rw [handleParams]
    cases hf : win32Calls p with
    | some f =>
      dsimp only
      rw [attrCallCount_append, win32Calls_attr_one p f hf ws, ih (f ws).1,
        recognizedCount_cons, hf]
      rfl
    | none =>
      dsimp only
      rw [ih ws, recognizedCount_cons, hf]
      simp

theorem emitSegs_written (cfg : Config) (segs : List RawSeg) : ∀ w : Option WinTermState,
    (emitSegs cfg w segs).2.written = segsPlain segs := by
  induction segs with
  | nil => intro w; rfl
  | cons s rest ih =>
    intro w
    cases s with
    | ch c => simp [emitSegs, segsPlain, ih]
    | csi ps => simp [emitSegs, segsPlain, ih]

theorem oscApply_text (ms : List (Nat × Nat × List Char)) :
    ∀ (w : Option WinTermState) (cur : List Char) (acc : List NativeCall)
      (t : List Char) (w2 : Option WinTermState) (cs : List NativeCall),
      oscApply w cur ms acc = Except.ok (t, w2, cs) →
      t = ms.foldl (fun c m => spliceRange c m.1 m.2.1) cur := by
  induction ms with
  | nil =>
    intro w cur acc t w2 cs h
    rw [oscApply] at h
    cases h
    rfl
  | cons m rest ih =>
    obtain ⟨s, e, ps⟩ := m
    intro w cur acc t w2 cs h
    rw [oscApply] at h
    cases hh : oscHandle w ps with
    | error er => rw [hh] at h; exact absurd h (by simp)
    | ok pr =>
      obtain ⟨pw, pc⟩ := pr
      rw [hh] at h
      dsimp only at h
      exact ih pw (spliceRange cur s e) (acc ++ pc) t w2 cs h

theorem process_text_written (cfg : Config) (w : Option WinTermState) (text : List Char)
    (w2 : Option WinTermState) (out : Output)
    (h : process_text cfg w text = WriteResult.ok w2 out) :
    out.written = stripBytes text := by
  rw [process_text] at h
  cases hco : convert_osc w text with
  | error er => rw [hco] at h; exact absurd h (by simp)
  | ok r =>
    obtain ⟨t2, w3, calls⟩ := r
    rw [hco] at h
    dsimp only at h
    have ht : t2 = oscStripped text :=
      oscApply_text (oscFinditer text) w text [] t2 w3 calls hco
    cases h
    dsimp only
    rw [emitSegs_written, ht]
    rfl

theorem a2w_write_written (cfg : Config) (w : Option WinTermState) (text : List Char)
    (w2 : Option WinTermState) (out : Output)
    (hmode : (cfg.strip || cfg.convert) = true) (hauto : cfg.autoreset = false)
    (h : a2w_write cfg w text = WriteResult.ok w2 out) :
    out.written = stripBytes text := by
  rw [a2w_write, if_pos hmode] at h
  cases hp : process_text cfg w text with
  | error er => rw [hp] at h; exact absurd h (by simp)
  | ok w3 out3 =>
    rw [hp] at h
    dsimp only at h
    rw [hauto] at h
    simp only [Bool.false_eq_true, if_false] at h
    cases h
    exact process_text_written cfg w text _ _ hp

theorem takeWhile_all_append (p : Char → Bool) (b : Char) (r : List Char)
    (hb : p b = false) :
    ∀ l : List Char, (∀ c ∈ l, p c = true) →
      (l ++ b :: r).takeWhile p = l ∧ (l ++ b :: r).dropWhile p = b :: r := by
  intro l
  induction l with
  | nil =>
    intro _
    constructor
    · simp [List.takeWhile_cons, hb]
    · simp [List.dropWhile_cons, hb]
  | cons c cs ih =>
    intro hl
    have hc : p c = true := hl c (List.mem_cons_self c cs)
    have ih2 := ih fun d hd => hl d (List.mem_cons_of_mem c hd)
    constructor
    · simp [List.takeWhile_cons, hc, ih2.1]
    · simp [List.dropWhile_cons, hc, ih2.2]

theorem splitSemi_no_sep : ∀ t : List Char, ';' ∉ t → splitSemi t = [t]
  | [], _ => rfl
  | c :: cs, h => by
    have hc : c ≠ ';' := fun hc => h (hc ▸ List.mem_cons_self c cs)
    have ih := splitSemi_no_sep cs fun hm => h (List.mem_cons_of_mem c hm)
    rw [splitSemi, if_neg hc, ih]

theorem oscBody_append (t : List Char) (hb : '\x07' ∉ t) (hn : '\n' ∉ t) :
    oscBody (t ++ ['\x07']) = some t := by
  have hall : ∀ c ∈ t, (!(c = '\x07' || c = '\n')) = true := by
    intro c hc
    have h1 : c ≠ '\x07' := fun h => hb (h ▸ hc)
    have h2 : c ≠ '\n' := fun h => hn (h ▸ hc)
    simp [h1, h2]
  have hfail : (!('\x07' = '\x07' || '\x07' = '\n')) = false := by simp
  have hh := takeWhile_all_append (fun c => !(c = '\x07' || c = '\n')) '\x07' [] hfail t hall
  rw [oscBody, hh.2, hh.1]
  rfl

theorem oscGo_single (i : Nat) (body : List Char) (hb : '\x07' ∉ body) (hn : '\n' ∉ body) :
    ∀ fuel : Nat, 1 ≤ fuel →
      oscGo fuel i ('\x1b' :: ']' :: (body ++ ['\x07']))
        = [(i, i + 2 + body.length + 1, body)] := by
  intro fuel hf
  obtain ⟨f, rfl⟩ : ∃ f, fuel = f + 1 := ⟨fuel - 1, by omega⟩
  have hdrop : ('\x1b' :: ']' :: (body ++ ['\x07'])).drop (2 + body.length + 1) = [] := by
    rw [List.drop_eq_nil_iff]
    simp only [List.length_cons, List.length_append, List.length_nil]
    omega
  rw [oscGo, oscAt_cons_cons, if_pos (by decide), oscBody_append body hb hn]
  dsimp only
  rw [hdrop, oscGo_nil]

theorem oscFinditer_osc (body : List Char) (hb : '\x07' ∉ body) (hn : '\n' ∉ body) :
    oscFinditer ('\x1b' :: ']' :: (body ++ ['\x07']))
      = [(0, 0 + 2 + body.length + 1, body)] := by
  rw [oscFinditer_eq]
  exact oscGo_single 0 body hb hn _ (Nat.succ_le_succ (Nat.zero_le _))

theorem a2w_write_of_process (cfg : Config) (w : Option WinTermState) (text : List Char)
    (hmode : (cfg.strip || cfg.convert) = true) (hauto : cfg.autoreset = false)
    (w2 : Option WinTermState) (out : Output)
    (h : process_text cfg w text = WriteResult.ok w2 out) :
    a2w_write cfg w text = WriteResult.ok w2 out := by
  rw [a2w_write, if_pos hmode, h]
  dsimp only
  rw [hauto]
  simp only [Bool.false_eq_true, if_false]

theorem a2w_write_reset_token (cfg : Config) (w : Option WinTermState)
    (hc : cfg.convert = true) (ha : cfg.autoreset = false) :
    a2w_write cfg w ('\x1b' :: '[' :: '0' :: ['m'])
      = WriteResult.ok (handle_ansi_sequence cfg w ['0']).1
          ⟨[], (handle_ansi_sequence cfg w ['0']).2⟩ := by
  have hpt : process_text cfg w ('\x1b' :: '[' :: '0' :: ['m'])
      = WriteResult.ok (handle_ansi_sequence cfg w ['0']).1
          ⟨[], (handle_ansi_sequence cfg w ['0']).2 ++ []⟩ := rfl
  rw [a2w_write, hc, Bool.or_true, if_pos (rfl : true = true), hpt]
  dsimp only
  rw [ha]
  simp only [Bool.false_eq_true, if_false, List.append_nil]

/-- C1: for every `write(text)` where `text` contains no ANSI introducer byte
(no ESC), the bytes emitted to the wrapped destination are byte-identical to
`text` in each of the three modes — any `convert`/`strip` flags, `autoreset`
off as at default construction — and no native calls occur. -/
theorem c1_plain_roundtrip (cfg : Config) (w : Option WinTermState) (text : List Char)
    (hesc : '\x1b' ∉ text) (hauto : cfg.autoreset = false) :
    a2w_write cfg w text = WriteResult.ok w ⟨text, []⟩ :=
  a2w_write_id cfg w text (Or.inl hesc) (Or.inl hesc) hauto

/-- C1 witness: concrete instance on `"abc"` in Convert mode. -/
theorem c1_plain_roundtrip_witness :
    '\x1b' ∉ "abc".data ∧
      a2w_write ⟨true, false, false, false⟩ (some (WinTermState.init 7)) "abc".data
        = WriteResult.ok (some (WinTermState.init 7)) ⟨"abc".data, []⟩ :=
  ⟨by decide,
   c1_plain_roundtrip ⟨true, false, false, false⟩ (some (WinTermState.init 7)) "abc".data
     (by decide) rfl⟩

/-- C2 counterexample: in Convert mode, after writing `ESC[31;32m` the final
foreground is not `WinColor.GREEN`: the claim that the later parameter
(32, green) overrides the earlier one is false on this code, because 32 is
not a key of the `win32_calls` table. -/
theorem c2_later_param_green_counterexample :
    finalFore (a2w_write ⟨true, false, false, false⟩ (some (WinTermState.init 7))
        "\x1b[31;32m".data) ≠ some WinColorGREEN := by decide

/-- C2 (amended): in Convert mode, after a write of the single CSI token
`ESC[31;32m`, the final foreground is `WinColor.RED`: parameter 31 is the
only wired foreground code, and parameter 32 is unrecognized and silently
ignored, so the later parameter does not override the earlier one. -/
theorem c2_unrecognized_param_ignored (d : Nat) :
    finalFore (a2w_write ⟨true, false, false, false⟩ (some (WinTermState.init d))
        "\x1b[31;32m".data) = some WinColorRED := rfl

/-- C3 counterexample: with both flags `None`, on a platform with native ANSI
support (`os.name != 'nt'`) and an interactive destination, the translator
resolves to Strip, not Passthrough as the claim states. -/
theorem c3_auto_interactive_counterexample :
    autoMode false false true = Mode.Strip ∧ Mode.Strip ≠ Mode.Passthrough := by decide

/-- C3 (amended): `Auto` resolves to Convert iff the platform lacks native
ANSI support (`os.name == 'nt'`), the native console API test passes, and the
destination is interactive; in every other case it resolves to Strip —
interactivity is not consulted again and Passthrough is never chosen,
because `strip` defaults to `not convert`. -/
theorem c3_auto_resolution : ∀ onWindows winapiTest isatty : Bool,
    (autoMode onWindows winapiTest isatty = Mode.Convert
      ↔ (onWindows && winapiTest && isatty) = true)
    ∧ autoMode onWindows winapiTest isatty ≠ Mode.Passthrough := by decide

/-- C4: evaluation at the failing input: a Strip-mode `write` of the
well-formed OSC title sequence `ESC]0;T BEL`, on a platform where no native
console API is available (`winterm is None`), raises `AttributeError` from
the unconditional `winterm.set_title` call in `convert_osc` — the write does
not complete, contradicting the claim. -/
theorem c4_strip_osc_attribute_error :
    a2w_write ⟨false, true, false, false⟩ none "\x1b]0;T\x07".data
      = WriteResult.error PyError.attributeError := by decide

/-- C5: in Convert mode, a write of `ESC]0;My Title BEL` triggers exactly one
native title-set call, whose payload is `"My Title"`, and the OSC sequence
contributes zero bytes to the plain text forwarded to the wrapped
destination (for any initial console attributes). -/
theorem c5_title_extraction (d : Nat) :
    a2w_write ⟨true, false, false, false⟩ (some (WinTermState.init d))
        "\x1b]0;My Title\x07".data
      = WriteResult.ok (some (WinTermState.init d))
          ⟨[], [NativeCall.setConsoleTitle "My Title".data]⟩ := rfl

/-- C6 counterexample: the Convert-mode CSI token `ESC[0;0m` carries two
recognized parameters and triggers two native set-attributes calls — not
exactly one batched call per token, as the claim states. -/
theorem c6_per_token_batching_counterexample :
    attrCallCount (nativeOf (a2w_write ⟨true, false, false, false⟩
        (some (WinTermState.init 7)) "\x1b[0;0m".data)) = 2 ∧ (2 : Nat) ≠ 1 := by decide

/-- C6 (amended): in Convert mode the native set-attributes primitive is
invoked once per recognized parameter of a CSI token — each mapped `winterm`
action applies the attributes immediately — so a token with n recognized
parameters produces n set-attributes calls, not one. -/
theorem c6_per_recognized_param (ws : WinTermState) (paramstring : List Char) :
    attrCallCount (handle_ansi_sequence ⟨true, false, false, false⟩ (some ws) paramstring).2
      = recognizedCount (parseParams paramstring) :=
  handleParams_attr_count (parseParams paramstring) ws

/-- C7 counterexample: in Strip mode with the destination open, `reset_all`
writes nothing at all to the wrapped destination — not the literal reset
escape `ESC[0m` that the claim asserts. -/
theorem c7_strip_reset_counterexample :
    a2w_reset_all ⟨false, true, false, false⟩ none = (none, ⟨[], []⟩)
    ∧ (⟨[], []⟩ : Output) ≠ ⟨'\x1b' :: '[' :: '0' :: ['m'], []⟩ := by decide

/-- C7 (amended): `reset_all` in Convert mode has exactly the effect of a
write of the single-parameter CSI token `ESC[0m`; the literal plain-text
reset escape is written only in Passthrough mode (neither convert nor strip)
with the destination open; in Strip mode `reset_all` writes nothing. -/
theorem c7_reset_modes (conv st cl : Bool) (w : Option WinTermState) :
    (conv = true →
      WriteResult.ok (a2w_reset_all ⟨conv, st, false, cl⟩ w).1
          (a2w_reset_all ⟨conv, st, false, cl⟩ w).2
        = a2w_write ⟨conv, st, false, cl⟩ w ('\x1b' :: '[' :: '0' :: ['m']))
    ∧ (conv = false → st = true →
        a2w_reset_all ⟨conv, st, false, cl⟩ w = (w, ⟨[], []⟩))
    ∧ (conv = false → st = false → cl = false →
        a2w_reset_all ⟨conv, st, false, cl⟩ w = (w, ⟨'\x1b' :: '[' :: '0' :: ['m'], []⟩)) := by
  refine ⟨?_, ?_, ?_⟩
  · rintro rfl
    rw [a2w_write_reset_token ⟨true, st, false, cl⟩ w rfl rfl]
    rfl
  · rintro rfl rfl
    rfl
  · rintro rfl rfl rfl
    rfl

/-- C7 witness: the three branches at concrete flag values. -/
theorem c7_reset_modes_witness :
    a2w_reset_all ⟨false, true, false, false⟩ none = (none, ⟨[], []⟩)
    ∧ a2w_reset_all ⟨false, false, false, false⟩ none
        = (none, ⟨'\x1b' :: '[' :: '0' :: ['m'], []⟩)
    ∧ WriteResult.ok (a2w_reset_all ⟨true, false, false, false⟩ none).1
          (a2w_reset_all ⟨true, false, false, false⟩ none).2
        = a2w_write ⟨true, false, false, false⟩ none ('\x1b' :: '[' :: '0' :: ['m']) :=
  ⟨(c7_reset_modes false true false none).2.1 rfl rfl,
   (c7_reset_modes false false false none).2.2 rfl rfl rfl,
   (c7_reset_modes true false false none).1 rfl⟩

/-- C8: an input whose control sequences are all unterminated — it contains
no CSI terminator byte `m` and no OSC terminator BEL, as in the claim's
example `"abc" + ESC + "[31"` — never makes `write` fail, and the entire
original bytes, dangling partial sequence included, are forwarded to the
destination as plain text with no truncation, in every mode (`autoreset`
off), Strip and Passthrough in particular. -/
theorem c8_unterminated_plain (cfg : Config) (w : Option WinTermState) (text : List Char)
    (hm : 'm' ∉ text) (hbel : '\x07' ∉ text) (hauto : cfg.autoreset = false) :
    a2w_write cfg w text = WriteResult.ok w ⟨text, []⟩ :=
  a2w_write_id cfg w text (Or.inr hbel) (Or.inr hm) hauto

/-- C8 witness: the claim's example `"abc" + ESC + "[31"` in Strip mode. -/
theorem c8_unterminated_plain_witness :
    ('m' ∉ "abc\x1b[31".data ∧ '\x07' ∉ "abc\x1b[31".data) ∧
      a2w_write ⟨false, true, false, false⟩ none "abc\x1b[31".data
        = WriteResult.ok none ⟨"abc\x1b[31".data, []⟩ :=
  ⟨⟨by decide, by decide⟩,
   c8_unterminated_plain ⟨false, true, false, false⟩ none "abc\x1b[31".data
     (by decide) (by decide) rfl⟩

/-- C9 counterexample: stripping is not idempotent: for the input
`ESC + "[3" + ESC + "[31m" + "1m"`, one strip removes the embedded complete
sequence and splices the surrounding bytes into the new sequence `ESC[31m`,
which a second strip removes — the two results differ. -/
theorem c9_strip_idempotent_counterexample :
    stripBytes (stripBytes "\x1b[3\x1b[31m1m".data) ≠ stripBytes "\x1b[3\x1b[31m1m".data := by
  decide

/-- C9 (amended): stripping an already-clean string is a no-op: whenever the
stripped output contains no ESC byte, stripping it again returns it
unchanged.  Unconditional idempotence fails (see the counterexample) because
splicing a sequence out of the text can create a new sequence. -/
theorem c9_strip_conditional_idempotent (s : List Char)
    (h : '\x1b' ∉ stripBytes s) :
    stripBytes (stripBytes s) = stripBytes s :=
  stripBytes_no_esc (stripBytes s) h

/-- C9 witness: concrete instance whose stripped output is clean. -/
theorem c9_strip_conditional_idempotent_witness :
    '\x1b' ∉ stripBytes "a\x1b[31mb".data ∧
      stripBytes (stripBytes "a\x1b[31mb".data) = stripBytes "a\x1b[31mb".data :=
  ⟨by decide, c9_strip_conditional_idempotent "a\x1b[31mb".data (by decide)⟩

/-- C10: for any BEL-terminated OSC sequence whose first `';'`-separated
field is empty — input `ESC ] ; t BEL` with `t` free of BEL, newline and
`';'` — `convert_osc` performs a title-set call with the second field `t` as
payload, because the sub-command check `params[0] in '02'` is Python
substring membership, which the empty string satisfies. -/
theorem c10_empty_subcommand_title (t : List Char) (ws : WinTermState)
    (hb : '\x07' ∉ t) (hn : '\n' ∉ t) (hs : ';' ∉ t) :
    a2w_write ⟨true, false, false, false⟩ (some ws)
        ('\x1b' :: ']' :: ((';' :: t) ++ ['\x07']))
      = WriteResult.ok (some ws) ⟨[], [NativeCall.setConsoleTitle t]⟩
    ∧ pyInSub [] ('0' :: ['2']) = true := by
  refine ⟨?_, rfl⟩
  have hb2 : '\x07' ∉ ';' :: t := by
    intro hmem
    rcases List.mem_cons.mp hmem with h | h
    · exact absurd h (by decide)
    · exact hb h
  have hn2 : '\n' ∉ ';' :: t := by
    intro hmem
    rcases List.mem_cons.mp hmem with h | h
    · exact absurd h (by decide)
    · exact hn h
  have hfind := oscFinditer_osc (';' :: t) hb2 hn2
  have hsplice : spliceRange ('\x1b' :: ']' :: ((';' :: t) ++ ['\x07'])) 0
      (0 + 2 + (';' :: t).length + 1) = [] := by
    rw [spliceRange, List.take_zero, List.nil_append, List.drop_eq_nil_iff]
    simp only [List.length_cons, List.length_append, List.length_nil]
    omega
  have hsplit : splitSemi (';' :: t) = [] :: [t] := by
    rw [splitSemi, if_pos rfl, splitSemi_no_sep t hs]
  have hhandle : oscHandle (some ws) (';' :: t)
      = Except.ok (some ws, [NativeCall.setConsoleTitle t]) := by
    rw [oscHandle, hsplit]
    rfl
  have hco : convert_osc (some ws) ('\x1b' :: ']' :: ((';' :: t) ++ ['\x07']))
      = Except.ok ([], some ws, [NativeCall.setConsoleTitle t]) := by
    rw [convert_osc, hfind, oscApply, hhandle, hsplice]
    rfl
  have hpt : process_text ⟨true, false, false, false⟩ (some ws)
      ('\x1b' :: ']' :: ((';' :: t) ++ ['\x07']))
      = WriteResult.ok (some ws) ⟨[], [NativeCall.setConsoleTitle t]⟩ := by
    rw [process_text, hco]
    rfl
  exact a2w_write_of_process ⟨true, false, false, false⟩ (some ws)
    ('\x1b' :: ']' :: ((';' :: t) ++ ['\x07'])) rfl rfl _ _ hpt

/-- C10 witness: concrete instance `ESC];T BEL`. -/
theorem c10_empty_subcommand_title_witness :
    ('\x07' ∉ ['T'] ∧ '\n' ∉ ['T'] ∧ ';' ∉ ['T']) ∧
      a2w_write ⟨true, false, false, false⟩ (some (WinTermState.init 7))
          ('\x1b' :: ']' :: ((';' :: ['T']) ++ ['\x07']))
        = WriteResult.ok (some (WinTermState.init 7)) ⟨[], [NativeCall.setConsoleTitle ['T']]⟩ :=
  ⟨⟨by decide, by decide, by decide⟩,
   (c10_empty_subcommand_title ['T'] (WinTermState.init 7)
     (by decide) (by decide) (by decide)).1⟩

/-- C2 amended, concrete instance at default attributes 7. -/
theorem c2_unrecognized_param_ignored_witness :
    finalFore (a2w_write ⟨true, false, false, false⟩ (some (WinTermState.init 7))
        "\x1b[31;32m".data) = some WinColorRED :=
  c2_unrecognized_param_ignored 7

/-- C3 amended, concrete instance: all three conditions hold. -/
theorem c3_auto_resolution_witness :
    (autoMode true true true = Mode.Convert ↔ (true && true && true) = true)
    ∧ autoMode true true true ≠ Mode.Passthrough :=
  c3_auto_resolution true true true

/-- C5, concrete instance at default attributes 7. -/
theorem c5_title_extraction_witness :
    a2w_write ⟨true, false, false, false⟩ (some (WinTermState.init 7))
        "\x1b]0;My Title\x07".data
      = WriteResult.ok (some (WinTermState.init 7))
          ⟨[], [NativeCall.setConsoleTitle "My Title".data]⟩ :=
  c5_title_extraction 7

/-- C6 amended, concrete instance on the token `0;31`. -/
theorem c6_per_recognized_param_witness :
    attrCallCount (handle_ansi_sequence ⟨true, false, false, false⟩
        (some (WinTermState.init 7)) "0;31".data).2
      = recognizedCount (parseParams "0;31".data) :=
  c6_per_recognized_param (WinTermState.init 7) "0;31".data
